import Mathlib

/-!
Shallow embedding of the client-side voice-query session of the repository
(component `VoiceAssistant`, source file src/unnamed/part_001).

The component is a single-threaded, event-driven state machine.  React state
hooks become fields of a `Session` record; the two `useEffect` blocks whose
dependencies are component state (the final-transcript dispatch effect and the
silence auto-stop effect) are modelled as an effect flush that runs after every
event-handling turn, re-running an effect exactly when its dependency tuple
changed, as React does.  `setTimeout`/`clearTimeout` are modelled by a list of
pending timer entries plus the single `timeoutRef` cell of the source;
`SpeechRecognition` objects (one per run of the recognition-init effect, held
in `recognitionRef`) are modelled by a list of capture records whose last
element is the object currently held by the ref.  The asynchronous
`processQuery` is split at its single await point into a synchronous dispatch
(`processQueryStart`, everything up to the fetch) and a continuation
(`responderSettle`, everything after the fetch settles); `remote = none`
stands for any failure of the remote call (network error, non-success status,
or malformed payload), which the source's catch block absorbs identically.
-/

namespace VoiceAssistant

/-- JS `String.prototype.toLowerCase`, on the character list of the string
(ASCII case mapping, which covers every pattern the component matches). -/
def toLowerStr (s : String) : String := String.mk (s.data.map Char.toLower)

/-- JS `String.prototype.trim`, on the character list of the string. -/
def trimStr (s : String) : String :=
  String.mk ((((s.data.dropWhile Char.isWhitespace).reverse).dropWhile Char.isWhitespace).reverse)

/-- Whether `p` is a prefix of the second list (executable helper). -/
def prefixAt : List Char → List Char → Bool
  | [], _ => true
  | _ :: _, [] => false
  | a :: as, b :: bs => a == b && prefixAt as bs

/-- Whether `p` occurs contiguously inside the second list (executable helper). -/
def infixAt (p : List Char) : List Char → Bool
  | [] => prefixAt p []
  | b :: bs => prefixAt p (b :: bs) || infixAt p bs

/-- JS `String.prototype.includes`: `pat` occurs as a substring of `s`. -/
def includesStr (s pat : String) : Bool := infixAt pat.data s.data

/-- `micState` enum of the source: `'idle' | 'listening' | 'processing'`. -/
inductive MicState
  | idle
  | listening
  | processing
  deriving DecidableEq, Repr

/-- `SupportedLanguage` of the source: `'en-US' | 'hi-IN' | 'kn-IN'`. -/
inductive Lang
  | enUS
  | hiIN
  | knIN
  deriving DecidableEq, Repr

/-- The category tag of a suggested action:
`'grocery' | 'reminder' | 'note' | 'appointment'`. -/
inductive ActionType
  | grocery
  | reminder
  | note
  | appointment
  deriving DecidableEq, Repr

/-- `VoiceAction` interface of the source. -/
structure VoiceAction where
  id : String
  label : String
  type : ActionType
  deriving DecidableEq, Repr

/-- `VoiceResponse` interface of the source (`actions?` defaults to `[]`). -/
structure VoiceResponse where
  answer_text : String
  disclaimer : String
  actions : List VoiceAction
  deriving DecidableEq, Repr

/-- One entry of the `mockRecentReports` constant. -/
structure Report where
  type : String
  value : String
  date : String
  status : String
  deriving DecidableEq, Repr

/-- The `mockUserProfile` module constant. -/
structure UserProfile where
  name : String
  age : Nat
  conditions : List String
  medications : List String
  deriving DecidableEq, Repr

def mockUserProfile : UserProfile :=
  { name := "John Doe"
    age := 45
    conditions := ["diabetes", "hypertension"]
    medications := ["Metformin", "Lisinopril"] }

def mockRecentReports : List Report :=
  [ { type := "Blood Sugar", value := "145 mg/dL", date := "2024-01-15", status := "elevated" }
  , { type := "Blood Pressure", value := "138/88", date := "2024-01-14", status := "high" }
  , { type := "HbA1c", value := "7.2%", date := "2024-01-10", status := "needs_improvement" } ]

/-- `getLocalizedText` of the source: pick the variant for the language. -/
def getLocalizedText (lang : Lang) (en hi kn : String) : String :=
  match lang with
  | .hiIN => hi
  | .knIN => kn
  | .enUS => en

/-- `generateMockResponse` of the source: the local deterministic fallback
responder.  Keyword branches are checked in source order on the lowercased
query; `?.field` projections of the `find?` results render `"undefined"` if
the report is absent, as a JS template literal would.  A total function: every
branch returns a fully built `VoiceResponse`. -/
def generateMockResponse (selectedLanguage : Lang) (query : String) : VoiceResponse :=
  let input := toLowerStr query
  let disclaimer := getLocalizedText selectedLanguage
    "This is general guidance; consult your doctor."
    "यह सामान्य मार्गदर्शन है; अपने डॉक्टर से सलाह लें।"
    "ಇದು ಸಾಮಾನ್ಯ ಮಾರ್ಗದರ್ಶನ; ನಿಮ್ಮ ವೈದ್ಯರನ್ನು ಸಂಪರ್ಕಿಸಿ।"
  if includesStr input "blood sugar" || includesStr input "glucose" || includesStr input "diabetes" then
    let latestBG := mockRecentReports.find? (fun r => r.type == "Blood Sugar")
    let v := (latestBG.map Report.value).getD "undefined"
    let d := (latestBG.map Report.date).getD "undefined"
    let st := (latestBG.map Report.status).getD "undefined"
    { answer_text := getLocalizedText selectedLanguage
        ("Your latest blood sugar was " ++ v ++ " on " ++ d ++ ". This is " ++ st ++
          ". Consider checking your medication timing and diet.")
        ("आपका नवीनतम रक्त शर्करा " ++ v ++ " था " ++ d ++ " को। यह " ++ st ++
          " है। अपनी दवा का समय और आहार की जांच करें।")
        ("ನಿಮ್ಮ ಇತ್ತೀಚಿನ ರಕ್ತದ ಸಕ್ಕರೆ " ++ v ++ " ಆಗಿತ್ತು " ++ d ++ " ನಲ್ಲಿ। ಇದು " ++ st ++ " ಆಗಿದೆ।")
      disclaimer := disclaimer
      actions :=
        [ { id := "reminder", label := "Add Reminder", type := .reminder }
        , { id := "appointment", label := "Schedule Appointment", type := .appointment } ] }
  else if includesStr input "blood pressure" || includesStr input "hypertension" then
    let latestBP := mockRecentReports.find? (fun r => r.type == "Blood Pressure")
    let v := (latestBP.map Report.value).getD "undefined"
    let st := (latestBP.map Report.status).getD "undefined"
    { answer_text := getLocalizedText selectedLanguage
        ("Your recent blood pressure reading was " ++ v ++ ". This is " ++ st ++
          ". Consider reducing salt intake and monitoring regularly.")
        ("आपका हालिया रक्तचाप " ++ v ++ " था। यह " ++ st ++ " है। नमक कम करें और नियमित जांच करें।")
        ("ನಿಮ್ಮ ಇತ್ತೀಚಿನ ರಕ್ತದ ಒತ್ತಡ " ++ v ++ " ಆಗಿತ್ತು। ಇದು " ++ st ++ " ಆಗಿದೆ।")
      disclaimer := disclaimer
      actions := [ { id := "groceries", label := "Add to Grocery List", type := .grocery } ] }
  else if includesStr input "medication" || includesStr input "medicine" then
    { answer_text := getLocalizedText selectedLanguage
        ("You\x27re currently taking " ++ String.intercalate " and " mockUserProfile.medications ++
          ". Remember to take them as prescribed.")
        ("आप वर्तमान में " ++ String.intercalate " और " mockUserProfile.medications ++
          " ले रहे हैं। इन्हें निर्धारित समय पर लेना याद रखें।")
        ("ನೀವು ಪ್ರಸ್ತುತ " ++ String.intercalate " ಮತ್ತು " mockUserProfile.medications ++
          " ತೆಗೆದುಕೊಳ್ಳುತ್ತಿದ್ದೀರಿ।")
      disclaimer := disclaimer
      actions := [ { id := "reminder", label := "Set Medication Reminder", type := .reminder } ] }
  else if includesStr input "hello" || includesStr input "hi" || includesStr input "namaste" then
    { answer_text := getLocalizedText selectedLanguage
        ("Hello " ++ mockUserProfile.name ++ "! I\x27m your health assistant. How can I help you today?")
        ("नमस्ते " ++ mockUserProfile.name ++ "! मैं आपका स्वास्थ्य सहायक हूं। आज मैं आपकी कैसे मदद कर सकता हूं?")
        ("ನಮಸ್ಕಾರ " ++ mockUserProfile.name ++ "! ನಾನು ನಿಮ್ಮ ಆರೋಗ್ಯ ಸಹಾಯಕ. ಇಂದು ನಾನು ನಿಮಗೆ ಹೇಗೆ ಸಹಾಯ ಮಾಡಬಹುದು?")
      disclaimer := disclaimer
      actions := [] }
  else
    { answer_text := getLocalizedText selectedLanguage
        ("I understand you said: \"" ++ query ++
          "\". As your health assistant, I can help with medication management, health monitoring, and wellness guidance.")
        ("मैं समझ गया कि आपने कहा: \"" ++ query ++
          "\"। आपके स्वास्थ्य सहायक के रूप में, मैं दवा प्रबंधन और स्वास्थ्य निगरानी में मदद कर सकता हूं।")
        ("ನೀವು ಹೇಳಿದ್ದು ನನಗೆ ಅರ್ಥವಾಯಿತು: \"" ++ query ++
          "\"। ನಿಮ್ಮ ಆರೋಗ್ಯ ಸಹಾಯಕನಾಗಿ, ನಾನು ಔಷಧ ನಿರ್ವಹಣೆ ಮತ್ತು ಆರೋಗ್ಯ ಮೇಲ್ವಿಚಾರಣೆಯಲ್ಲಿ ಸಹಾಯ ಮಾಡಬಹುದು।")
      disclaimer := disclaimer
      actions := [] }

/-- One `SpeechRecognitionResult` of an `onresult` event: a transcript and its
`isFinal` flag (the source reads `results[i][0].transcript`, one alternative). -/
structure SpeechResult where
  transcript : String
  isFinal : Bool
  deriving DecidableEq, Repr

/-- One `SpeechRecognition` object, as created by a run of the
recognition-init effect.  `running` is true between a successful `start()`
call and the delivery of its end event; `stopReq` records that `stop()` has
been requested on a running object (cleared when the end event arrives, per
the capture contract "after stop() is requested, exactly one end event
eventually fires"). -/
structure Capture where
  running : Bool
  stopReq : Bool
  lang : Lang
  deriving DecidableEq, Repr

/-- One armed, unfired, uncancelled `setTimeout` of the silence auto-stop
effect.  `capturedMic` is the `micState` value captured by the callback's
closure at arming time. -/
structure TimerEntry where
  id : Nat
  deadline : Nat
  capturedMic : MicState
  deriving DecidableEq, Repr

/-- `'not-allowed' | 'no-speech' |` anything else, the error taxonomy of
`recognition.onerror`. -/
inductive RecError
  | notAllowed
  | noSpeech
  | other
  deriving DecidableEq, Repr

/-- The voice session.  The first block mirrors the component's `useState`
hooks one for one (`voiceResponse` is the spec's `lastResponse`,
`showTextInput` the spec's `textFallbackOpen`).  The second block models the
refs and the platform scheduler state: `captures` holds every recognition
object created so far, the last entry being `recognitionRef.current`;
`pendingTimers`/`timerRef`/`nextTimerId` model the timeout machinery;
`pendingQuery` is the in-flight `processQuery` continuation with the query
text and the `selectedLanguage` its closure captured at dispatch time;
`speaking` is the utterance currently handed to `speechSynthesis`.
`silenceDeps`/`finalDep` store each effect's dependency values from its last
run, so the flush can re-run an effect exactly when React would.  The final
block is ghost instrumentation: counters of `processQuery` dispatches and
`getUserMedia` permission requests. -/
structure Session where
  micState : MicState
  selectedLanguage : Lang
  interimTranscript : String
  finalTranscript : String
  voiceResponse : Option VoiceResponse
  textInput : String
  showTextInput : Bool
  permissionDenied : Bool
  captures : List Capture
  pendingTimers : List TimerEntry
  timerRef : Option Nat
  nextTimerId : Nat
  clock : Nat
  pendingQuery : Option (String × Lang)
  speaking : Option (String × Lang)
  supported : Bool
  mounted : Bool
  silenceDeps : MicState × String
  finalDep : String
  dispatches : Nat
  permRequests : Nat
  deriving DecidableEq, Repr

/-- Apply `f` to the element at index `i`, if any. -/
def modifyIdx (f : Capture → Capture) : Nat → List Capture → List Capture
  | _, [] => []
  | 0, c :: rest => f c :: rest
  | n + 1, c :: rest => c :: modifyIdx f n rest

/-- Apply `f` to the last element: the object held by `recognitionRef`. -/
def modifyCur (f : Capture → Capture) (l : List Capture) : List Capture :=
  modifyIdx f (l.length - 1) l

/-- `recognition.stop()`: request stop on a running object (a no-op on an
object that is not running, as in the browser). -/
def Capture.requestStop (c : Capture) : Capture :=
  if c.running then { c with stopReq := true } else c

/-- The capture's end event has been delivered: the run is over. -/
def Capture.endRun (c : Capture) : Capture :=
  { c with running := false, stopReq := false }

/-- `c.running && !c.stopReq`: a capture handle that is live and has not been
cancelled/replaced. -/
def Capture.isActive (c : Capture) : Bool := c.running && !c.stopReq

/-- A fresh recognition object as built by the init effect (not started;
`recognition.lang = selectedLanguage`). -/
def newCapture (l : Lang) : Capture := { running := false, stopReq := false, lang := l }

/-- `if (timeoutRef.current) clearTimeout(timeoutRef.current)`: remove the
ref'd timer from the pending set (a no-op if it already fired or was cleared);
the ref cell itself is left as the caller wrote it. -/
def eraseRefTimer (s : Session) : Session :=
  { s with pendingTimers :=
      match s.timerRef with
      | none => s.pendingTimers
      | some r => s.pendingTimers.filter (fun e => e.id != r) }

/-- Body of the silence auto-stop effect (source lines 200-218): while
Listening with no interim text, cancel-and-rearm a 3-second timeout whose
callback requests capture stop; otherwise cancel any pending timeout and null
the ref. -/
def silenceBody (s : Session) : Session :=
  if s.micState = .listening ∧ s.interimTranscript = "" then
    let s1 := eraseRefTimer s
    { s1 with
      pendingTimers := s1.pendingTimers ++ [⟨s1.nextTimerId, s1.clock + 3, s1.micState⟩]
      timerRef := some s1.nextTimerId
      nextTimerId := s1.nextTimerId + 1 }
  else if s.timerRef.isSome then
    { eraseRefTimer s with timerRef := none }
  else s

/-- Re-run the silence effect iff its dependency tuple `[micState,
interimTranscript]` changed since its last run; a re-run first executes the
previous run's cleanup (clearTimeout without nulling the ref), then the body,
then records the new dependency values. -/
def silenceCheck (s : Session) : Session :=
  if s.silenceDeps = (s.micState, s.interimTranscript) then s
  else
    let s1 := silenceBody (eraseRefTimer s)
    { s1 with silenceDeps := (s1.micState, s1.interimTranscript) }

/-- The synchronous prefix of `processQuery` (source lines 266-282): enter
Processing and issue the fetch.  The continuation's closure captures the query
text and the render's `selectedLanguage`. -/
def processQueryStart (q : String) (s : Session) : Session :=
  { s with
    micState := .processing
    pendingQuery := some (q, s.selectedLanguage)
    dispatches := s.dispatches + 1 }

/-- Body of the final-transcript effect (source lines 191-197): a non-blank
final transcript is dispatched as a query and then cleared. -/
def finalBody (s : Session) : Session :=
  if trimStr s.finalTranscript ≠ "" then
    let s1 := processQueryStart s.finalTranscript s
    { s1 with finalTranscript := "" }
  else s

/-- Re-run the final-transcript effect iff its dependency `finalTranscript`
changed since its last run, recording the new dependency value. -/
def finalCheck (s : Session) : Session :=
  if s.finalDep = s.finalTranscript then s
  else
    let s1 := finalBody s
    { s1 with finalDep := s1.finalTranscript }

/-- Effect flush at the end of an event-handling turn, in source order:
final-transcript effect, then silence effect (which therefore sees any
`micState` change the dispatch made). -/
def flushEffects (s : Session) : Session := silenceCheck (finalCheck s)

/-- `recognition.onstart` (source lines 121-125). -/
def onStartBody (s : Session) : Session :=
  { s with micState := .listening, interimTranscript := "", permissionDenied := false }

/-- The `onresult` loop: concatenate the transcripts of the non-final results
in order. -/
def collectInterim (rs : List SpeechResult) : String :=
  rs.foldl (fun acc r => if r.isFinal then acc else acc ++ r.transcript) ""

/-- The `onresult` loop: concatenate the transcripts of the final results in
order. -/
def collectFinal (rs : List SpeechResult) : String :=
  rs.foldl (fun acc r => if r.isFinal then acc ++ r.transcript else acc) ""

/-- `recognition.onresult` (source lines 127-146), for the recognition object
at index `i` (the handler's closure stops that same object); a truthy
(non-empty) aggregated final transcript is latched, the interim transcript
cleared, and `recognition.stop()` called. -/
def onResultBody (i : Nat) (rs : List SpeechResult) (s : Session) : Session :=
  let interim := collectInterim rs
  let final := collectFinal rs
  let s1 := { s with interimTranscript := interim }
  if final ≠ "" then
    { s1 with
      finalTranscript := final
      interimTranscript := ""
      captures := modifyIdx Capture.requestStop i s1.captures }
  else s1

/-- `recognition.onerror` (source lines 148-174): `not-allowed` sets the
sticky permission flag; every error path returns to Idle and clears the
interim transcript (toasts are outside the model). -/
def onErrorBody (e : RecError) (s : Session) : Session :=
  let s1 := if e = .notAllowed then { s with permissionDenied := true } else s
  { s1 with micState := .idle, interimTranscript := "" }

/-- `recognition.onend` (source lines 176-179) for the object at index `i`:
the run is over; back to Idle with the interim transcript cleared. -/
def onEndBody (i : Nat) (s : Session) : Session :=
  let s1 := { s with captures := modifyIdx Capture.endRun i s.captures }
  { s1 with micState := .idle, interimTranscript := "" }

/-- `handleMicClick` (source lines 235-264).  `granted` is the outcome the
platform would give the `getUserMedia` permission request; the request itself
is counted in `permRequests`.  On grant, `recognition.lang` is set to the
stored language and `start()` is called (a no-op if the object is already
running, where the browser would throw `InvalidStateError`). -/
def handleMicClick (granted : Bool) (s : Session) : Session :=
  if ¬ s.supported then
    { s with showTextInput := true }
  else if s.micState = .listening then
    { s with captures := modifyCur Capture.requestStop s.captures }
  else if s.micState = .processing then s
  else
    let s1 := { s with permRequests := s.permRequests + 1 }
    if granted then
      { s1 with
        captures := modifyCur
          (fun c =>
            if c.running then { c with lang := s1.selectedLanguage }
            else { c with lang := s1.selectedLanguage, running := true, stopReq := false })
          s1.captures }
    else
      { s1 with permissionDenied := true }

/-- The mic `Button` of the view with its `disabled` prop (source lines
486-499): activation is a no-op while Processing or while permission is
denied; otherwise it invokes `handleMicClick`. -/
def micButtonClick (granted : Bool) (s : Session) : Session :=
  if s.micState = .processing ∨ s.permissionDenied then s
  else handleMicClick granted s

/-- The language `Select` handler plus the re-run of the recognition-init
effect it triggers (its dependency array contains `selectedLanguage`, source
lines 110-188): store the new language; then the old effect's cleanup stops
the recognition object currently in the ref, and the new body creates a fresh
object configured with the new language and stores it in the ref.  When
speech recognition is unsupported the init effect is a no-op. -/
def selectLanguage (l : Lang) (s : Session) : Session :=
  let s1 := { s with selectedLanguage := l }
  if s1.supported then
    { s1 with captures := modifyCur Capture.requestStop s1.captures ++ [newCapture l] }
  else s1

/-- `handleTextSubmit` (source lines 395-401): a non-blank text input is
dispatched (trimmed) and the text fallback closed. -/
def handleTextSubmit (s : Session) : Session :=
  if trimStr s.textInput ≠ "" then
    let s1 := processQueryStart (trimStr s.textInput) s
    { s1 with textInput := "", showTextInput := false }
  else s

/-- `speakResponse` (source lines 384-393): `speechSynthesis.cancel()` then
`speak` a new utterance of `text` tagged `lang` — any in-progress playback is
replaced. -/
def speakResponse (text : String) (lang : Lang) (s : Session) : Session :=
  { s with speaking := some (text, lang) }

/-- The continuation of `processQuery` after the remote call settles (source
lines 284-306): a successful remote payload, or on any failure the local
fallback built from the closure-captured query and language; the result
becomes `voiceResponse`, is spoken, and the `finally` block returns to Idle.
The continuation performs no liveness check. -/
def responderSettle (remote : Option VoiceResponse) (s : Session) : Session :=
  match s.pendingQuery with
  | none => s
  | some (q, lang) =>
    let voiceData :=
      match remote with
      | some v => v
      | none => generateMockResponse lang q
    let s1 := { s with voiceResponse := some voiceData }
    let s2 := speakResponse voiceData.answer_text lang s1
    { s2 with micState := .idle, pendingQuery := none }

/-- A `setTimeout` callback fires: enabled only for a pending entry whose
deadline equals the clock.  The fired entry leaves the pending set; the
callback body is `if (recognitionRef.current && micState === 'listening')
recognitionRef.current.stop()`, with the closure-captured `micState` —
it requests capture stop and touches no session state itself. -/
def timerFire (id : Nat) (s : Session) : Session :=
  match s.pendingTimers.find? (fun e => e.id == id && e.deadline == s.clock) with
  | none => s
  | some e =>
    if s.captures ≠ [] ∧ e.capturedMic = .listening then
      { s with pendingTimers := s.pendingTimers.filter (fun x => x.id != id),
               captures := modifyCur Capture.requestStop s.captures }
    else
      { s with pendingTimers := s.pendingTimers.filter (fun x => x.id != id) }

/-- Unmount: React runs every effect cleanup — the init effect stops the
recognition object in the ref (source lines 183-188), the silence effect
clears the pending timeout (source lines 213-217).  Nothing cancels
`speechSynthesis`. -/
def unmountSession (s : Session) : Session :=
  let s1 :=
    if s.supported then { s with captures := modifyCur Capture.requestStop s.captures } else s
  let s2 := eraseRefTimer s1
  { s2 with mounted := false }

/-- The externally delivered events that drive the session. -/
inductive Ev
  | micClick (granted : Bool)
  | selectLang (l : Lang)
  | recStart (i : Nat)
  | recResult (i : Nat) (rs : List SpeechResult)
  | recError (i : Nat) (e : RecError)
  | recEnd (i : Nat)
  | timer (id : Nat)
  | settle (remote : Option VoiceResponse)
  | textChange (t : String)
  | textSubmit
  | toggleText (b : Bool)
  | unmount
  deriving DecidableEq, Repr

/-- Whether the recognition object at index `i` exists and is running — the
delivery guard for its platform events. -/
def capRunning (i : Nat) (s : Session) : Bool :=
  ((s.captures[i]?).map Capture.running).getD false

/-- Dispatch one event to its handler.  Recognition events are delivered to
the object they are wired to and only while that object is running. -/
def handleEv : Ev → Session → Session
  | .micClick g, s => micButtonClick g s
  | .selectLang l, s => selectLanguage l s
  | .recStart i, s => if capRunning i s then onStartBody s else s
  | .recResult i rs, s => if capRunning i s then onResultBody i rs s else s
  | .recError i e, s => if capRunning i s then onErrorBody e s else s
  | .recEnd i, s => if capRunning i s then onEndBody i s else s
  | .timer id, s => timerFire id s
  | .settle r, s => responderSettle r s
  | .textChange t, s => { s with textInput := t }
  | .textSubmit, s => handleTextSubmit s
  | .toggleText b, s => if b then { s with showTextInput := true } else { s with showTextInput := false, textInput := "" }
  | .unmount, s => unmountSession s

/-- One event-handling turn at time `t`: run the handler, then flush the
effects — except that unmount runs only the cleanups, and on a torn-down
session only the in-flight responder continuation still executes (its code
runs to completion with no liveness check; no effects exist any more). -/
def step (t : Nat) (e : Ev) (s : Session) : Session :=
  let s0 := { s with clock := t }
  if s.mounted then
    match e with
    | .unmount => unmountSession s0
    | _ => flushEffects (handleEv e s0)
  else
    match e with
    | .settle r => responderSettle r s0
    | _ => s0

/-- Run a timed event trace. -/
def run (s : Session) : List (Nat × Ev) → Session
  | [] => s
  | (t, e) :: rest => run (step t e s) rest

/-- The state after mount: all hooks at their initial values, and — when
speech recognition is supported — the init effect has created one recognition
object, the final-transcript effect saw the empty transcript, and the silence
effect saw `(idle, "")` and armed nothing. -/
def initSession (lang : Lang) (supported : Bool) : Session :=
  { micState := .idle
    selectedLanguage := lang
    interimTranscript := ""
    finalTranscript := ""
    voiceResponse := none
    textInput := ""
    showTextInput := false
    permissionDenied := false
    captures := if supported then [newCapture lang] else []
    pendingTimers := []
    timerRef := none
    nextTimerId := 0
    clock := 0
    pendingQuery := none
    speaking := none
    supported := supported
    mounted := true
    silenceDeps := (.idle, "")
    finalDep := ""
    dispatches := 0
    permRequests := 0 }

/-- Timer-bookkeeping invariant: the pending set is empty, or it is exactly
the one entry `timeoutRef` points at (the cancel-before-replace discipline of
the silence effect). -/
def timersOk (s : Session) : Prop :=
  s.pendingTimers = [] ∨ ∃ r e, s.timerRef = some r ∧ s.pendingTimers = [e] ∧ e.id = r

/-- Capture-bookkeeping invariant: every recognition object other than the
one currently in `recognitionRef` (the last) has been stop-requested if it is
still running — a replaced handle was always cancelled first. -/
def capsOk (l : List Capture) : Prop :=
  ∀ j c, j + 1 < l.length → l[j]? = some c → c.running = true → c.stopReq = true

/-- The conjunction of the two resource invariants of the session. -/
def Inv (s : Session) : Prop := timersOk s ∧ capsOk s.captures

/-! ### Helper lemmas -/

theorem data_append (a b : String) : (a ++ b).data = a.data ++ b.data := rfl

theorem append_data_ne (a b : String) (h : a.data ≠ []) : (a ++ b).data ≠ [] := by
  intro hc
  exact h (List.append_eq_nil.mp (by rw [← data_append]; exact hc)).1

theorem append_ne_empty_left (a b : String) (h : a.data ≠ []) : a ++ b ≠ "" := by
  intro hc
  exact append_data_ne a b h (by rw [hc])

theorem ne_empty_of_trim_ne (f : String) (h : trimStr f ≠ "") : f ≠ "" := by
  intro hc
  apply h
  rw [hc]
  decide

theorem length_modifyIdx (f : Capture → Capture) (i : Nat) (l : List Capture) :
    (modifyIdx f i l).length = l.length := by
  induction l generalizing i with
  | nil => cases i <;> rfl
  | cons c rest ih =>
    cases i with
    | zero => simp [modifyIdx]
    | succ n => simp [modifyIdx, ih]

theorem getElem?_modifyIdx (f : Capture → Capture) (i j : Nat) (l : List Capture) :
    (modifyIdx f i l)[j]? = if i = j then (l[j]?).map f else l[j]? := by
  induction l generalizing i j with
  | nil => cases i <;> cases j <;> simp [modifyIdx]
  | cons c rest ih =>
    cases i with
    | zero =>
      cases j with
      | zero => simp [modifyIdx]
      | succ m => simp [modifyIdx]
    | succ n =>
      cases j with
      | zero => simp [modifyIdx]
      | succ m => simpa [modifyIdx] using ih n m

theorem requestStop_safe (c : Capture) :
    (Capture.requestStop c).running = true → (Capture.requestStop c).stopReq = true := by
  unfold Capture.requestStop
  split <;> simp_all

theorem endRun_safe (c : Capture) :
    (Capture.endRun c).running = true → (Capture.endRun c).stopReq = true := by
  simp [Capture.endRun]

theorem capsOk_modifyIdx (f : Capture → Capture) (i : Nat) (l : List Capture)
    (hl : capsOk l) (hf : ∀ c, (f c).running = true → (f c).stopReq = true) :
    capsOk (modifyIdx f i l) := by
  intro j c hj hc
  rw [length_modifyIdx] at hj
  rw [getElem?_modifyIdx] at hc
  by_cases hij : i = j
  · rw [if_pos hij] at hc
    match hg : l[j]? with
    | none => rw [hg] at hc; simp at hc
    | some c0 =>
      rw [hg] at hc
      simp only [Option.map_some'] at hc
      cases hc
      exact hf c0
  · rw [if_neg hij] at hc
    exact hl j c hj hc

theorem capsOk_modifyCur (f : Capture → Capture) (l : List Capture) (hl : capsOk l) :
    capsOk (modifyCur f l) := by
  intro j c hj hc
  unfold modifyCur at hj hc
  rw [length_modifyIdx] at hj
  rw [getElem?_modifyIdx] at hc
  have hne : l.length - 1 ≠ j := by omega
  rw [if_neg hne] at hc
  exact hl j c hj hc

theorem capsOk_replace (l : List Capture) (x : Capture) (hl : capsOk l) :
    capsOk (modifyCur Capture.requestStop l ++ [x]) := by
  intro j c hj hc
  have hlen : (modifyCur Capture.requestStop l).length = l.length := by
    unfold modifyCur; exact length_modifyIdx _ _ _
  rw [List.length_append, hlen] at hj
  simp only [List.length_singleton] at hj
  have hjl : j < l.length := by omega
  rw [List.getElem?_append, hlen, if_pos hjl] at hc
  unfold modifyCur at hc
  rw [getElem?_modifyIdx] at hc
  by_cases hij : l.length - 1 = j
  · rw [if_pos hij] at hc
    match hg : l[j]? with
    | none => rw [hg] at hc; simp at hc
    | some c0 =>
      rw [hg] at hc
      simp only [Option.map_some'] at hc
      cases hc
      exact requestStop_safe c0
  · rw [if_neg hij] at hc
    exact hl j c (by omega) hc

theorem eraseRefTimer_shape (s : Session) :
    ∃ pt, eraseRefTimer s = { s with pendingTimers := pt } :=
  ⟨_, rfl⟩

theorem silenceBody_shape (s : Session) :
    ∃ pt tr ni, silenceBody s = { s with pendingTimers := pt, timerRef := tr, nextTimerId := ni } := by
  unfold silenceBody
  obtain ⟨pt0, h0⟩ := eraseRefTimer_shape s
  split
  · rw [h0]
    exact ⟨_, _, _, rfl⟩
  · split
    · rw [h0]
      exact ⟨_, _, _, rfl⟩
    · exact ⟨s.pendingTimers, s.timerRef, s.nextTimerId, rfl⟩

theorem silenceCheck_shape (s : Session) :
    ∃ pt tr ni sd,
      silenceCheck s = { s with pendingTimers := pt, timerRef := tr, nextTimerId := ni, silenceDeps := sd } := by
  unfold silenceCheck
  split
  · exact ⟨s.pendingTimers, s.timerRef, s.nextTimerId, s.silenceDeps, rfl⟩
  · obtain ⟨pt0, h0⟩ := eraseRefTimer_shape s
    rw [h0]
    obtain ⟨pt1, tr1, ni1, h1⟩ := silenceBody_shape { s with pendingTimers := pt0 }
    rw [h1]
    exact ⟨_, _, _, _, rfl⟩

theorem finalCheck_shape (s : Session) :
    ∃ ms pq dp ft fd,
      finalCheck s
        = { s with micState := ms, pendingQuery := pq, dispatches := dp,
                   finalTranscript := ft, finalDep := fd } := by
  unfold finalCheck finalBody processQueryStart
  split
  · exact ⟨s.micState, s.pendingQuery, s.dispatches, s.finalTranscript, s.finalDep, rfl⟩
  · split
    · exact ⟨_, _, _, _, _, rfl⟩
    · exact ⟨_, _, _, _, _, rfl⟩

theorem flushEffects_shape (s : Session) :
    ∃ ms pq dp ft fd pt tr ni sd,
      flushEffects s
        = { s with micState := ms, pendingQuery := pq, dispatches := dp,
                   finalTranscript := ft, finalDep := fd, pendingTimers := pt,
                   timerRef := tr, nextTimerId := ni, silenceDeps := sd } := by
  unfold flushEffects
  obtain ⟨ms, pq, dp, ft, fd, h1⟩ := finalCheck_shape s
  rw [h1]
  obtain ⟨pt, tr, ni, sd, h2⟩ := silenceCheck_shape
    { s with micState := ms, pendingQuery := pq, dispatches := dp,
             finalTranscript := ft, finalDep := fd }
  rw [h2]
  exact ⟨_, _, _, _, _, _, _, _, _, rfl⟩

theorem finalCheck_of_dep_eq (s : Session) (h : s.finalDep = s.finalTranscript) :
    finalCheck s = s := by
  unfold finalCheck
  rw [if_pos h]

theorem timersOk_of_eq (s1 s2 : Session) (hp : s2.pendingTimers = s1.pendingTimers)
    (hr : s2.timerRef = s1.timerRef) (h : timersOk s1) : timersOk s2 := by
  unfold timersOk at h ⊢
  rw [hp, hr]
  exact h

theorem eraseRefTimer_pending_nil (s : Session) (h : timersOk s) :
    (eraseRefTimer s).pendingTimers = [] := by
  show (match s.timerRef with
        | none => s.pendingTimers
        | some r => s.pendingTimers.filter (fun e => e.id != r)) = []
  rcases Option.eq_none_or_eq_some s.timerRef with ht | ⟨r, ht⟩
  · rw [ht]
    rcases h with h0 | ⟨r2, e, hr, _, _⟩
    · exact h0
    · rw [ht] at hr; cases hr
  · rw [ht]
    rcases h with h0 | ⟨r2, e, hr, hp, hid⟩
    · simp [h0]
    · rw [ht] at hr
      cases hr
      simp [hp, hid]

theorem timersOk_eraseRefTimer (s : Session) (h : timersOk s) :
    timersOk (eraseRefTimer s) :=
  Or.inl (eraseRefTimer_pending_nil s h)

theorem timersOk_silenceBody (s : Session) (h : timersOk s) :
    timersOk (silenceBody s) := by
  unfold silenceBody
  split
  · right
    refine ⟨(eraseRefTimer s).nextTimerId,
      ⟨(eraseRefTimer s).nextTimerId, (eraseRefTimer s).clock + 3, (eraseRefTimer s).micState⟩,
      rfl, ?_, rfl⟩
    show (eraseRefTimer s).pendingTimers ++
        [⟨(eraseRefTimer s).nextTimerId, (eraseRefTimer s).clock + 3, (eraseRefTimer s).micState⟩] = _
    rw [eraseRefTimer_pending_nil s h]
    rfl
  · split
    · exact Or.inl (eraseRefTimer_pending_nil s h)
    · exact h

theorem timersOk_silenceCheck (s : Session) (h : timersOk s) :
    timersOk (silenceCheck s) := by
  unfold silenceCheck
  split
  · exact h
  · have h1 : timersOk (eraseRefTimer s) := timersOk_eraseRefTimer s h
    have h2 : timersOk (silenceBody (eraseRefTimer s)) := timersOk_silenceBody _ h1
    exact timersOk_of_eq _ _ rfl rfl h2

theorem timersOk_filter (s : Session) (p : TimerEntry → Bool) (h : timersOk s) :
    timersOk { s with pendingTimers := s.pendingTimers.filter p } := by
  rcases h with h0 | ⟨r, e, hr, hp, hid⟩
  · left; simp [h0]
  · by_cases hpe : p e = true
    · right
      exact ⟨r, e, hr, by rw [hp]; simp [List.filter_cons, hpe], hid⟩
    · left
      rw [hp]
      simp only [Bool.not_eq_true] at hpe
      simp [List.filter_cons, hpe]

theorem silenceCheck_micState (s : Session) : (silenceCheck s).micState = s.micState := by
  obtain ⟨pt, tr, ni, sd, h⟩ := silenceCheck_shape s; rw [h]

theorem silenceCheck_interim (s : Session) :
    (silenceCheck s).interimTranscript = s.interimTranscript := by
  obtain ⟨pt, tr, ni, sd, h⟩ := silenceCheck_shape s; rw [h]

theorem silenceCheck_finalTranscript (s : Session) :
    (silenceCheck s).finalTranscript = s.finalTranscript := by
  obtain ⟨pt, tr, ni, sd, h⟩ := silenceCheck_shape s; rw [h]

theorem silenceCheck_finalDep (s : Session) : (silenceCheck s).finalDep = s.finalDep := by
  obtain ⟨pt, tr, ni, sd, h⟩ := silenceCheck_shape s; rw [h]

theorem silenceCheck_dispatches (s : Session) : (silenceCheck s).dispatches = s.dispatches := by
  obtain ⟨pt, tr, ni, sd, h⟩ := silenceCheck_shape s; rw [h]

theorem silenceCheck_captures (s : Session) : (silenceCheck s).captures = s.captures := by
  obtain ⟨pt, tr, ni, sd, h⟩ := silenceCheck_shape s; rw [h]

theorem silenceCheck_mounted (s : Session) : (silenceCheck s).mounted = s.mounted := by
  obtain ⟨pt, tr, ni, sd, h⟩ := silenceCheck_shape s; rw [h]

theorem silenceCheck_selectedLanguage (s : Session) :
    (silenceCheck s).selectedLanguage = s.selectedLanguage := by
  obtain ⟨pt, tr, ni, sd, h⟩ := silenceCheck_shape s; rw [h]

theorem silenceCheck_permissionDenied (s : Session) :
    (silenceCheck s).permissionDenied = s.permissionDenied := by
  obtain ⟨pt, tr, ni, sd, h⟩ := silenceCheck_shape s; rw [h]

theorem silenceCheck_pendingQuery (s : Session) :
    (silenceCheck s).pendingQuery = s.pendingQuery := by
  obtain ⟨pt, tr, ni, sd, h⟩ := silenceCheck_shape s; rw [h]

theorem silenceCheck_voiceResponse (s : Session) :
    (silenceCheck s).voiceResponse = s.voiceResponse := by
  obtain ⟨pt, tr, ni, sd, h⟩ := silenceCheck_shape s; rw [h]

theorem silenceCheck_speaking (s : Session) : (silenceCheck s).speaking = s.speaking := by
  obtain ⟨pt, tr, ni, sd, h⟩ := silenceCheck_shape s; rw [h]

theorem silenceCheck_supported (s : Session) : (silenceCheck s).supported = s.supported := by
  obtain ⟨pt, tr, ni, sd, h⟩ := silenceCheck_shape s; rw [h]

theorem silenceCheck_permRequests (s : Session) :
    (silenceCheck s).permRequests = s.permRequests := by
  obtain ⟨pt, tr, ni, sd, h⟩ := silenceCheck_shape s; rw [h]

theorem finalCheck_captures (s : Session) : (finalCheck s).captures = s.captures := by
  obtain ⟨ms, pq, dp, ft, fd, h⟩ := finalCheck_shape s; rw [h]

theorem finalCheck_interim (s : Session) :
    (finalCheck s).interimTranscript = s.interimTranscript := by
  obtain ⟨ms, pq, dp, ft, fd, h⟩ := finalCheck_shape s; rw [h]

theorem finalCheck_selectedLanguage (s : Session) :
    (finalCheck s).selectedLanguage = s.selectedLanguage := by
  obtain ⟨ms, pq, dp, ft, fd, h⟩ := finalCheck_shape s; rw [h]

theorem finalCheck_permissionDenied (s : Session) :
    (finalCheck s).permissionDenied = s.permissionDenied := by
  obtain ⟨ms, pq, dp, ft, fd, h⟩ := finalCheck_shape s; rw [h]

theorem finalCheck_mounted (s : Session) : (finalCheck s).mounted = s.mounted := by
  obtain ⟨ms, pq, dp, ft, fd, h⟩ := finalCheck_shape s; rw [h]

theorem finalCheck_voiceResponse (s : Session) :
    (finalCheck s).voiceResponse = s.voiceResponse := by
  obtain ⟨ms, pq, dp, ft, fd, h⟩ := finalCheck_shape s; rw [h]

theorem finalCheck_speaking (s : Session) : (finalCheck s).speaking = s.speaking := by
  obtain ⟨ms, pq, dp, ft, fd, h⟩ := finalCheck_shape s; rw [h]

theorem finalCheck_supported (s : Session) : (finalCheck s).supported = s.supported := by
  obtain ⟨ms, pq, dp, ft, fd, h⟩ := finalCheck_shape s; rw [h]

theorem finalCheck_permRequests (s : Session) :
    (finalCheck s).permRequests = s.permRequests := by
  obtain ⟨ms, pq, dp, ft, fd, h⟩ := finalCheck_shape s; rw [h]

theorem finalCheck_pendingTimers (s : Session) :
    (finalCheck s).pendingTimers = s.pendingTimers := by
  obtain ⟨ms, pq, dp, ft, fd, h⟩ := finalCheck_shape s; rw [h]

theorem finalCheck_timerRef (s : Session) : (finalCheck s).timerRef = s.timerRef := by
  obtain ⟨ms, pq, dp, ft, fd, h⟩ := finalCheck_shape s; rw [h]

theorem flushEffects_captures (s : Session) : (flushEffects s).captures = s.captures := by
  unfold flushEffects
  rw [silenceCheck_captures, finalCheck_captures]

theorem flushEffects_interim (s : Session) :
    (flushEffects s).interimTranscript = s.interimTranscript := by
  unfold flushEffects
  rw [silenceCheck_interim, finalCheck_interim]

theorem flushEffects_selectedLanguage (s : Session) :
    (flushEffects s).selectedLanguage = s.selectedLanguage := by
  unfold flushEffects
  rw [silenceCheck_selectedLanguage, finalCheck_selectedLanguage]

theorem flushEffects_permissionDenied (s : Session) :
    (flushEffects s).permissionDenied = s.permissionDenied := by
  unfold flushEffects
  rw [silenceCheck_permissionDenied, finalCheck_permissionDenied]

theorem flushEffects_mounted (s : Session) : (flushEffects s).mounted = s.mounted := by
  unfold flushEffects
  rw [silenceCheck_mounted, finalCheck_mounted]

theorem flushEffects_voiceResponse (s : Session) :
    (flushEffects s).voiceResponse = s.voiceResponse := by
  unfold flushEffects
  rw [silenceCheck_voiceResponse, finalCheck_voiceResponse]

theorem flushEffects_speaking (s : Session) : (flushEffects s).speaking = s.speaking := by
  unfold flushEffects
  rw [silenceCheck_speaking, finalCheck_speaking]

theorem flushEffects_supported (s : Session) : (flushEffects s).supported = s.supported := by
  unfold flushEffects
  rw [silenceCheck_supported, finalCheck_supported]

theorem flushEffects_permRequests (s : Session) :
    (flushEffects s).permRequests = s.permRequests := by
  unfold flushEffects
  rw [silenceCheck_permRequests, finalCheck_permRequests]

theorem capsOk_filter_le_one (l : List Capture) (h : capsOk l) :
    (l.filter Capture.isActive).length ≤ 1 := by
  induction l with
  | nil => simp
  | cons c rest ih =>
    cases rest with
    | nil =>
      simp only [List.filter]
      split <;> simp
    | cons d rest2 =>
      have hc : Capture.isActive c = false := by
        unfold Capture.isActive
        cases hr : c.running with
        | false => simp
        | true =>
          have := h 0 c (by simp [List.length_cons]) (by simp) hr
          simp [this]
      have hrest : capsOk (d :: rest2) := by
        intro j x hj hx hrun
        exact h (j + 1) x (by simp at hj ⊢; omega) (by simpa using hx) hrun
      rw [List.filter_cons, if_neg (by simp [hc])]
      exact ih hrest

theorem generateMockResponse_answer_ne (lang : Lang) (q : String) :
    (generateMockResponse lang q).answer_text ≠ "" := by
  cases lang <;>
    · simp only [generateMockResponse, getLocalizedText]
      repeat' split
      all_goals
        first
        | decide
        | (apply append_ne_empty_left
           all_goals (apply append_data_ne)
           all_goals decide)

theorem generateMockResponse_disclaimer_eq (lang : Lang) (q : String) :
    (generateMockResponse lang q).disclaimer
      = getLocalizedText lang "This is general guidance; consult your doctor."
          "यह सामान्य मार्गदर्शन है; अपने डॉक्टर से सलाह लें।"
          "ಇದು ಸಾಮಾನ್ಯ ಮಾರ್ಗದರ್ಶನ; ನಿಮ್ಮ ವೈದ್ಯರನ್ನು ಸಂಪರ್ಕಿಸಿ।" := by
  simp only [generateMockResponse]
  repeat' split
  all_goals rfl

theorem generateMockResponse_disclaimer_ne (lang : Lang) (q : String) :
    (generateMockResponse lang q).disclaimer ≠ "" := by
  rw [generateMockResponse_disclaimer_eq]
  cases lang <;> decide

/-! ### The claims -/

/-- Claim C1: for every dispatched query, if the remote responder call fails
(modelled by `remote = none`, covering network error, non-success status and
malformed payload alike), the session produces a non-empty `lastResponse` via
the local fallback generator, localized to the language selected when the
query was dispatched; the fallback is a total function producing a well-formed
answer (non-empty answer and disclaimer); and `micState` ends at Idle for
every settle outcome — it is never left stuck in Processing. -/
theorem claim1_responder_failure_fallback (s : Session) (q : String) :
    (processQueryStart q s).micState = MicState.processing ∧
    (responderSettle none (processQueryStart q s)).voiceResponse
      = some (generateMockResponse s.selectedLanguage q) ∧
    (generateMockResponse s.selectedLanguage q).answer_text ≠ "" ∧
    (generateMockResponse s.selectedLanguage q).disclaimer ≠ "" ∧
    (∀ remote, (responderSettle remote (processQueryStart q s)).micState = MicState.idle) := by
  refine ⟨rfl, rfl, generateMockResponse_answer_ne _ _,
    generateMockResponse_disclaimer_ne _ _, ?_⟩
  intro remote
  cases remote <;> rfl

/-- Claim C8: for the English utterance "what is my blood sugar" against the
mocked Blood Sugar report, the fallback answer text contains the three literal
report values, and the offered actions are exactly the reminder and the
appointment. -/
theorem claim8_blood_sugar_scenario :
    includesStr (generateMockResponse Lang.enUS "what is my blood sugar").answer_text
        "145 mg/dL" = true ∧
    includesStr (generateMockResponse Lang.enUS "what is my blood sugar").answer_text
        "2024-01-15" = true ∧
    includesStr (generateMockResponse Lang.enUS "what is my blood sugar").answer_text
        "elevated" = true ∧
    (generateMockResponse Lang.enUS "what is my blood sugar").actions.map VoiceAction.type
      = [ActionType.reminder, ActionType.appointment] ∧
    (generateMockResponse Lang.enUS "what is my blood sugar").actions.map VoiceAction.id
      = ["reminder", "appointment"] := by
  decide

/-- Claim C9: an empty or whitespace-only finalized utterance (the
final-transcript effect) or typed submission (`handleTextSubmit`) dispatches
no query and leaves the session — in particular `micState`, `lastResponse`
and the dispatch counter — entirely unchanged. -/
theorem claim9_blank_input_not_dispatched (s : Session) :
    (trimStr s.finalTranscript = "" → finalBody s = s) ∧
    (trimStr s.textInput = "" → handleTextSubmit s = s) := by
  constructor
  · intro h
    unfold finalBody
    rw [if_neg (fun hc => hc h)]
  · intro h
    unfold handleTextSubmit
    rw [if_neg (fun hc => hc h)]

/-- Witness for C9 at a concrete blank-input session. -/
theorem claim9_witness :
    finalBody { initSession Lang.enUS true with finalTranscript := "  " }
        = { initSession Lang.enUS true with finalTranscript := "  " } ∧
    handleTextSubmit { initSession Lang.enUS true with textInput := " " }
        = { initSession Lang.enUS true with textInput := " " } :=
  ⟨(claim9_blank_input_not_dispatched _).1 (by decide),
   (claim9_blank_input_not_dispatched _).2 (by decide)⟩

/-- Claim C10: activating the microphone control while `micState` is
Processing is a no-op — the button is disabled, so no capture is started or
stopped, no permission request is made, and every session field is
unchanged. -/
theorem claim10_mic_click_while_processing_noop (g : Bool) (s : Session)
    (h : s.micState = MicState.processing) : micButtonClick g s = s := by
  unfold micButtonClick
  rw [if_pos (Or.inl h)]

/-- Witness for C10 at a concrete Processing-state session. -/
theorem claim10_witness :
    micButtonClick true { initSession Lang.enUS true with micState := MicState.processing }
      = { initSession Lang.enUS true with micState := MicState.processing } :=
  claim10_mic_click_while_processing_noop true _ rfl

/-- Counterexample to C2 as stated: a final-result event whose finalized text
is whitespace-only (`" "`, truthy in the source's `if (final)`) produces no
Listening→Processing transition (`micState` stays Listening, no dispatch),
and `finalTranscript` remains non-empty beyond one event-handling turn —
the effect consumes only non-blank transcripts. -/
theorem claim2_counterexample :
    (let u := run (initSession Lang.enUS true)
        [(0, Ev.micClick true), (0, Ev.recStart 0), (1, Ev.recResult 0 [⟨" ", true⟩])]
     let v := step 2 (Ev.recResult 0 [⟨"x", false⟩]) u
     u.micState = MicState.listening ∧ u.dispatches = 0 ∧ u.finalTranscript = " " ∧
     v.finalTranscript = " " ∧ v.dispatches = 0 ∧ v.micState = MicState.listening) := by
  decide

/-- Counterexample to C3 as stated: an interim-result event with non-empty
text does not reset the quiet window — it cancels the pending silence timer
without re-arming it.  After `hello` arrives at time 1 the session is still
Listening with no pending timer, and a fire attempt at time 4 (3 seconds
later, no further interim events) requests nothing. -/
theorem claim3_counterexample :
    (let u := run (initSession Lang.enUS true)
        [(0, Ev.micClick true), (0, Ev.recStart 0), (1, Ev.recResult 0 [⟨"hello", false⟩])]
     u.micState = MicState.listening ∧ u.interimTranscript = "hello" ∧
     u.pendingTimers = [] ∧
     (step 4 (Ev.timer 0) u).captures.map Capture.stopReq = [false] ∧
     (step 4 (Ev.timer 1) u).captures.map Capture.stopReq = [false]) := by
  decide

/-- Counterexample to C4 as stated: after a rejected permission request the
mic control is disabled (`disabled = micState === 'processing' ||
permissionDenied`), so a later activation with the permission now grantable is
a no-op — no new permission request is made and the flag is never cleared:
the user cannot recover by re-granting. -/
theorem claim4_counterexample :
    (let u := run (initSession Lang.enUS true) [(0, Ev.micClick false)]
     let v := step 1 (Ev.micClick true) u
     u.permissionDenied = true ∧ u.micState = MicState.idle ∧ u.permRequests = 1 ∧
     u.captures.map Capture.running = [false] ∧
     v.permissionDenied = true ∧ v.permRequests = 1 ∧
     v.captures.map Capture.running = [false]) := by
  decide

/-- Counterexample to C6 as stated: switching the language while a capture is
active does alter it — the recognition-init effect re-runs, its cleanup stops
the active capture (stop requested on it) and replaces it with a fresh
not-started object, and when the end event then arrives the session falls
back to Idle. -/
theorem claim6_counterexample :
    (let u := run (initSession Lang.enUS true) [(0, Ev.micClick true), (0, Ev.recStart 0)]
     let v := step 5 (Ev.selectLang Lang.hiIN) u
     let w := step 6 (Ev.recEnd 0) v
     u.micState = MicState.listening ∧ u.captures.map Capture.stopReq = [false] ∧
     v.captures.map Capture.stopReq = [true, false] ∧
     v.captures.map Capture.running = [true, false] ∧
     w.micState = MicState.idle) := by
  decide

/-- Counterexample to C7 as stated: on unmount the in-flight playback is not
cancelled (`speaking` still holds the previous answer), and the in-flight
responder call's completion does mutate the torn-down session — the
continuation performs no liveness check, so after teardown it still stores the
response and starts new playback. -/
theorem claim7_counterexample :
    (let u := run (initSession Lang.enUS true)
        [(0, Ev.micClick true), (0, Ev.recStart 0), (1, Ev.recResult 0 [⟨"hello", true⟩]),
         (1, Ev.recEnd 0), (2, Ev.settle none), (3, Ev.micClick true), (3, Ev.recStart 0),
         (4, Ev.recResult 0 [⟨"what is my blood sugar", true⟩]), (5, Ev.unmount)]
     let v := step 6 (Ev.settle none) u
     u.mounted = false ∧ u.micState = MicState.processing ∧
     u.speaking = some ((generateMockResponse Lang.enUS "hello").answer_text, Lang.enUS) ∧
     v.voiceResponse = some (generateMockResponse Lang.enUS "what is my blood sugar") ∧
     v.speaking
       = some ((generateMockResponse Lang.enUS "what is my blood sugar").answer_text, Lang.enUS) ∧
     v.voiceResponse ≠ u.voiceResponse) := by
  decide

theorem timersOk_timerFire (id : Nat) (s : Session) (h : timersOk s) :
    timersOk (timerFire id s) := by
  unfold timerFire
  rcases Option.eq_none_or_eq_some
      (s.pendingTimers.find? (fun x => x.id == id && x.deadline == s.clock)) with hf | ⟨e, hf⟩
  · rw [hf]
    exact h
  · simp only [hf]
    by_cases hg : (s.captures ≠ [] ∧ e.capturedMic = MicState.listening)
    · rw [if_pos hg]
      exact timersOk_of_eq _ _ rfl rfl (timersOk_filter s (fun x => x.id != id) h)
    · rw [if_neg hg]
      exact timersOk_filter s (fun x => x.id != id) h

/-- Claim C3 (amended): while Listening the silence effect arms a timer with
a 3-second deadline exactly when the interim transcript is empty; an
interim-result event with non-empty text cancels the pending timer without
re-arming it (the quiet window restarts only once the interim transcript is
empty again, not at every interim event); the timer callback never touches
`micState` or the transcripts — when it fires at its deadline while the timer
is still pending it only requests the capture to stop. -/
theorem claim3_amended (s : Session) (hT : timersOk s) :
    ((s.micState = MicState.listening ∧ s.interimTranscript = "") →
      (silenceBody s).pendingTimers
        = [⟨s.nextTimerId, s.clock + 3, MicState.listening⟩]) ∧
    (¬ (s.micState = MicState.listening ∧ s.interimTranscript = "") →
      (silenceBody s).pendingTimers = []) ∧
    (∀ id, (timerFire id s).micState = s.micState ∧
      (timerFire id s).interimTranscript = s.interimTranscript) ∧
    (∀ id e, s.pendingTimers = [e] → e.id = id → e.deadline = s.clock →
      s.captures ≠ [] → e.capturedMic = MicState.listening →
      (timerFire id s).captures = modifyCur Capture.requestStop s.captures) := by
  refine ⟨?_, ?_, ?_, ?_⟩
  · intro h
    have h1 : (silenceBody s).pendingTimers
        = (eraseRefTimer s).pendingTimers ++ [⟨s.nextTimerId, s.clock + 3, s.micState⟩] := by
      unfold silenceBody
      rw [if_pos h]
      rfl
    rw [h1, eraseRefTimer_pending_nil s hT, h.1]
    rfl
  · intro h
    unfold silenceBody
    rw [if_neg h]
    by_cases h2 : s.timerRef.isSome
    · rw [if_pos h2]
      exact eraseRefTimer_pending_nil s hT
    · rw [if_neg h2]
      rcases hT with h0 | ⟨r, e, hr, hp, hid⟩
      · exact h0
      · rw [hr] at h2
        simp at h2
  · intro id
    unfold timerFire
    rcases Option.eq_none_or_eq_some
        (s.pendingTimers.find? (fun x => x.id == id && x.deadline == s.clock)) with hf | ⟨e, hf⟩
    · rw [hf]
      exact ⟨rfl, rfl⟩
    · simp only [hf]
      split
      · exact ⟨rfl, rfl⟩
      · exact ⟨rfl, rfl⟩
  · intro id e hp hid hdl hcap hmic
    have hfind : s.pendingTimers.find? (fun x => x.id == id && x.deadline == s.clock)
        = some e := by
      rw [hp]
      simp [List.find?, hid, hdl]
    unfold timerFire
    simp only [hfind]
    rw [if_pos ⟨hcap, hmic⟩]

/-- Witness for C3 (amended) at a concrete Listening session with one armed
timer at its deadline, reached by clicking the mic, receiving the
capture-start event, and letting the clock reach 3. -/
theorem claim3_amended_witness :
    (let u := run (initSession Lang.enUS true)
        [(0, Ev.micClick true), (0, Ev.recStart 0), (3, Ev.textChange "x")]
     (u.micState = MicState.listening ∧ u.interimTranscript = "") ∧
     (silenceBody u).pendingTimers = [⟨u.nextTimerId, u.clock + 3, MicState.listening⟩] ∧
     (timerFire 0 u).micState = u.micState ∧
     (timerFire 0 u).captures = modifyCur Capture.requestStop u.captures) := by
  refine ⟨by decide, ?_, ?_, ?_⟩
  · exact (claim3_amended _
      (Or.inr ⟨0, ⟨0, 3, MicState.listening⟩, by decide, by decide, by decide⟩)).1
      (by decide)
  · exact ((claim3_amended _
      (Or.inr ⟨0, ⟨0, 3, MicState.listening⟩, by decide, by decide, by decide⟩)).2.2.1 0).1
  · exact (claim3_amended _
      (Or.inr ⟨0, ⟨0, 3, MicState.listening⟩, by decide, by decide, by decide⟩)).2.2.2 0
      ⟨0, 3, MicState.listening⟩ (by decide) (by decide) (by decide) (by decide) (by decide)

/-- Claim C4 (amended): a refused permission request sets `permissionDenied`
with `micState` still Idle, no capture started and exactly one permission
request made; but once the flag is set the disabled mic control makes every
further activation a strict no-op — no new permission request can be made
from it, so the flag is never cleared by re-granting within the mounted
session (the only clearing site is the capture-start handler, unreachable
while the control is disabled). -/
theorem claim4_amended (s : Session) (hsup : s.supported = true)
    (hidle : s.micState = MicState.idle) (hnd : s.permissionDenied = false) :
    ((micButtonClick false s).permissionDenied = true ∧
     (micButtonClick false s).micState = MicState.idle ∧
     (micButtonClick false s).captures = s.captures ∧
     (micButtonClick false s).permRequests = s.permRequests + 1) ∧
    (∀ g u, u.permissionDenied = true → micButtonClick g u = u) := by
  constructor
  · have hmain : micButtonClick false s
        = { s with permRequests := s.permRequests + 1, permissionDenied := true } := by
      unfold micButtonClick handleMicClick
      rw [if_neg (by rw [hidle, hnd]; simp)]
      rw [if_neg (by rw [hsup]; simp)]
      rw [if_neg (by rw [hidle]; simp)]
      rw [if_neg (by rw [hidle]; simp)]
      rfl
    rw [hmain]
    exact ⟨rfl, hidle, rfl, rfl⟩
  · intro g u h
    unfold micButtonClick
    rw [if_pos (Or.inr h)]

/-- Witness for C4 (amended) at the freshly mounted session. -/
theorem claim4_amended_witness :
    (micButtonClick false (initSession Lang.enUS true)).permissionDenied = true ∧
    (micButtonClick false (initSession Lang.enUS true)).micState = MicState.idle ∧
    micButtonClick true (micButtonClick false (initSession Lang.enUS true))
      = micButtonClick false (initSession Lang.enUS true) :=
  ⟨(claim4_amended (initSession Lang.enUS true) rfl rfl rfl).1.1,
   (claim4_amended (initSession Lang.enUS true) rfl rfl rfl).1.2.1,
   (claim4_amended (initSession Lang.enUS true) rfl rfl rfl).2 true _ (by decide)⟩

theorem responderSettle_of_pending (remote : Option VoiceResponse) (x : Session)
    (q : String) (lang : Lang) (hq : x.pendingQuery = some (q, lang)) :
    responderSettle remote x
      = { x with
          voiceResponse := some (Option.getD remote (generateMockResponse lang q)),
          speaking := some ((Option.getD remote (generateMockResponse lang q)).answer_text, lang),
          micState := MicState.idle,
          pendingQuery := none } := by
  unfold responderSettle
  rw [hq]
  cases remote <;> rfl

/-- Claim C7 (amended): on unmount the capture held by the ref is
stop-requested and the pending silence timer is cleared, but in-flight
playback is NOT cancelled (`speaking` is untouched), and the responder
continuation performs no liveness check: when the in-flight call settles
after teardown it still stores the response, starts new playback, and resets
`micState`. -/
theorem claim7_amended (t : Nat) (s : Session) (hsup : s.supported = true)
    (hT : timersOk s) :
    (unmountSession s).captures = modifyCur Capture.requestStop s.captures ∧
    (unmountSession s).pendingTimers = [] ∧
    (unmountSession s).speaking = s.speaking ∧
    (unmountSession s).mounted = false ∧
    (∀ remote q lang, s.pendingQuery = some (q, lang) →
      (step t (Ev.settle remote) (unmountSession s)).voiceResponse
          = some (Option.getD remote (generateMockResponse lang q)) ∧
      (step t (Ev.settle remote) (unmountSession s)).speaking
          = some ((Option.getD remote (generateMockResponse lang q)).answer_text, lang) ∧
      (step t (Ev.settle remote) (unmountSession s)).micState = MicState.idle) := by
  have h1 : unmountSession s
      = { eraseRefTimer { s with captures := modifyCur Capture.requestStop s.captures }
          with mounted := false } := by
    unfold unmountSession
    rw [if_pos hsup]
  refine ⟨by rw [h1]; rfl, ?_, by rw [h1]; rfl, by rw [h1], ?_⟩
  · rw [h1]
    exact eraseRefTimer_pending_nil
      { s with captures := modifyCur Capture.requestStop s.captures }
      (timersOk_of_eq s _ rfl rfl hT)
  · intro remote q lang hq
    have hm2 : (unmountSession s).mounted = false := by
      rw [h1]
    have hstep : step t (Ev.settle remote) (unmountSession s)
        = responderSettle remote { unmountSession s with clock := t } := by
      unfold step
      rw [if_neg (by rw [hm2]; simp)]
    have hq3 : ({ unmountSession s with clock := t }).pendingQuery = some (q, lang) := by
      show (unmountSession s).pendingQuery = some (q, lang)
      rw [h1]
      exact hq
    rw [hstep, responderSettle_of_pending remote _ q lang hq3]
    exact ⟨rfl, rfl, rfl⟩

/-- Witness for C7 (amended) at a concrete session unmounted while
Processing. -/
theorem claim7_amended_witness :
    (let u := run (initSession Lang.enUS true)
        [(0, Ev.micClick true), (0, Ev.recStart 0), (1, Ev.recResult 0 [⟨"hello", true⟩])]
     (unmountSession u).pendingTimers = [] ∧
     (unmountSession u).speaking = u.speaking ∧
     (unmountSession u).mounted = false ∧
     (step 2 (Ev.settle none) (unmountSession u)).voiceResponse
       = some (generateMockResponse Lang.enUS "hello")) := by
  refine ⟨(claim7_amended 2 _ (by decide) (Or.inl (by decide))).2.1,
          (claim7_amended 2 _ (by decide) (Or.inl (by decide))).2.2.1,
          (claim7_amended 2 _ (by decide) (Or.inl (by decide))).2.2.2.1,
          ?_⟩
  exact ((claim7_amended 2 _ (by decide) (Or.inl (by decide))).2.2.2.2
    none "hello" Lang.enUS (by decide)).1

theorem getElem?_modifyCur (f : Capture → Capture) (l : List Capture) (j : Nat) :
    (modifyCur f l)[j]? = if l.length - 1 = j then (l[j]?).map f else l[j]? := by
  unfold modifyCur
  rw [getElem?_modifyIdx]

theorem micButtonClick_start (v : Session) (hsupv : v.supported = true)
    (hidlev : v.micState = MicState.idle) (hndv : v.permissionDenied = false) :
    micButtonClick true v
      = { v with
          permRequests := v.permRequests + 1
          captures := modifyCur
            (fun c =>
              if c.running then { c with lang := v.selectedLanguage }
              else { c with lang := v.selectedLanguage, running := true, stopReq := false })
            v.captures } := by
  unfold micButtonClick handleMicClick
  rw [if_neg (by rw [hidlev, hndv]; simp)]
  rw [if_neg (by rw [hsupv]; simp)]
  rw [if_neg (by rw [hidlev]; simp)]
  rw [if_neg (by rw [hidlev]; simp)]
  rw [if_pos rfl]

/-- Claim C6 (amended): switching the selected language immediately leaves
`micState` unchanged and stores the new language, and a language selected
while Idle determines the next capture's language tag; but the switch does
alter an already-active capture — the recognition-init effect re-runs, its
cleanup requests stop on the object in the ref, and a fresh not-started
object configured with the new language replaces it. -/
theorem claim6_amended (t : Nat) (l : Lang) (s : Session) (hm : s.mounted = true)
    (hsup : s.supported = true) (hdep : s.finalDep = s.finalTranscript) :
    (step t (Ev.selectLang l) s).selectedLanguage = l ∧
    (step t (Ev.selectLang l) s).micState = s.micState ∧
    (step t (Ev.selectLang l) s).captures
      = modifyCur Capture.requestStop s.captures ++ [newCapture l] ∧
    (s.micState = MicState.idle → s.permissionDenied = false →
      (micButtonClick true (step t (Ev.selectLang l) s)).captures[s.captures.length]?
        = some { running := true, stopReq := false, lang := l }) := by
  have hstep : step t (Ev.selectLang l) s
      = flushEffects (selectLanguage l { s with clock := t }) := by
    unfold step
    rw [if_pos hm]
    rfl
  have hsel : selectLanguage l { s with clock := t }
      = { s with
          clock := t
          selectedLanguage := l
          captures := modifyCur Capture.requestStop s.captures ++ [newCapture l] } := by
    unfold selectLanguage
    rw [if_pos hsup]
  have hdep2 : (selectLanguage l { s with clock := t }).finalDep
      = (selectLanguage l { s with clock := t }).finalTranscript := by
    rw [hsel]
    exact hdep
  have hflush : flushEffects (selectLanguage l { s with clock := t })
      = silenceCheck (selectLanguage l { s with clock := t }) := by
    unfold flushEffects
    rw [finalCheck_of_dep_eq _ hdep2]
  have hLang : (step t (Ev.selectLang l) s).selectedLanguage = l := by
    rw [hstep, hflush, silenceCheck_selectedLanguage, hsel]
  have hMic : (step t (Ev.selectLang l) s).micState = s.micState := by
    rw [hstep, hflush, silenceCheck_micState, hsel]
  have hCaps : (step t (Ev.selectLang l) s).captures
      = modifyCur Capture.requestStop s.captures ++ [newCapture l] := by
    rw [hstep, hflush, silenceCheck_captures, hsel]
  refine ⟨hLang, hMic, hCaps, ?_⟩
  intro hidle hnd
  have hPd : (step t (Ev.selectLang l) s).permissionDenied = false := by
    rw [hstep, hflush, silenceCheck_permissionDenied, hsel]
    exact hnd
  have hSup : (step t (Ev.selectLang l) s).supported = true := by
    rw [hstep, hflush, silenceCheck_supported, hsel]
    exact hsup
  have hMic2 : (step t (Ev.selectLang l) s).micState = MicState.idle := by
    rw [hMic]
    exact hidle
  rw [micButtonClick_start _ hSup hMic2 hPd]
  show (modifyCur _ (step t (Ev.selectLang l) s).captures)[s.captures.length]? = _
  rw [getElem?_modifyCur, hCaps, hLang]
  have hlen : (modifyCur Capture.requestStop s.captures).length = s.captures.length := by
    unfold modifyCur
    exact length_modifyIdx _ _ _
  have hlen2 : (modifyCur Capture.requestStop s.captures ++ [newCapture l]).length
      = s.captures.length + 1 := by
    rw [List.length_append, hlen]
    rfl
  rw [hlen2]
  rw [if_pos (by omega)]
  rw [List.getElem?_append, hlen]
  rw [if_neg (by omega)]
  simp only [Nat.sub_self, List.getElem?_cons_zero]
  rfl

/-- Witness for C6 (amended) at a concrete Idle session. -/
theorem claim6_amended_witness :
    (step 1 (Ev.selectLang Lang.hiIN) (initSession Lang.enUS true)).selectedLanguage
        = Lang.hiIN ∧
    (step 1 (Ev.selectLang Lang.hiIN) (initSession Lang.enUS true)).micState
        = MicState.idle ∧
    (micButtonClick true (step 1 (Ev.selectLang Lang.hiIN) (initSession Lang.enUS true))).captures[1]?
        = some { running := true, stopReq := false, lang := Lang.hiIN } := by
  refine ⟨(claim6_amended 1 Lang.hiIN (initSession Lang.enUS true) rfl rfl rfl).1,
          (claim6_amended 1 Lang.hiIN (initSession Lang.enUS true) rfl rfl rfl).2.1, ?_⟩
  exact (claim6_amended 1 Lang.hiIN (initSession Lang.enUS true) rfl rfl rfl).2.2.2
    rfl rfl

theorem flush_fields_of_clean (x : Session) (hdx : x.finalDep = x.finalTranscript) :
    (flushEffects x).micState = x.micState ∧
    (flushEffects x).finalTranscript = x.finalTranscript ∧
    (flushEffects x).finalDep = x.finalDep ∧
    (flushEffects x).mounted = x.mounted ∧
    (flushEffects x).captures = x.captures ∧
    (flushEffects x).dispatches = x.dispatches ∧
    (flushEffects x).selectedLanguage = x.selectedLanguage := by
  have h := finalCheck_of_dep_eq x hdx
  unfold flushEffects
  rw [h]
  exact ⟨silenceCheck_micState x, silenceCheck_finalTranscript x, silenceCheck_finalDep x,
         silenceCheck_mounted x, silenceCheck_captures x, silenceCheck_dispatches x,
         silenceCheck_selectedLanguage x⟩

theorem interim_turn (t i : Nat) (rs : List SpeechResult) (s : Session)
    (hm : s.mounted = true) (hl : s.micState = MicState.listening)
    (hf : s.finalTranscript = "") (hd : s.finalDep = "")
    (hnofinal : collectFinal rs = "") :
    (step t (Ev.recResult i rs) s).micState = MicState.listening ∧
    (step t (Ev.recResult i rs) s).finalTranscript = "" ∧
    (step t (Ev.recResult i rs) s).finalDep = "" ∧
    (step t (Ev.recResult i rs) s).mounted = true ∧
    (step t (Ev.recResult i rs) s).captures = s.captures ∧
    (step t (Ev.recResult i rs) s).dispatches = s.dispatches ∧
    (step t (Ev.recResult i rs) s).selectedLanguage = s.selectedLanguage := by
  have hstep : step t (Ev.recResult i rs) s
      = flushEffects (handleEv (Ev.recResult i rs) { s with clock := t }) := by
    unfold step
    rw [if_pos hm]
  by_cases hcr : capRunning i { s with clock := t } = true
  · have hh : handleEv (Ev.recResult i rs) { s with clock := t }
        = onResultBody i rs { s with clock := t } := by
      show (if capRunning i { s with clock := t } = true
            then onResultBody i rs { s with clock := t }
            else { s with clock := t })
          = onResultBody i rs { s with clock := t }
      rw [if_pos hcr]
    have ho : onResultBody i rs { s with clock := t }
        = { s with clock := t, interimTranscript := collectInterim rs } := by
      simp only [onResultBody, hnofinal]
      rw [if_neg (by simp)]
    obtain ⟨g1, g2, g3, g4, g5, g6, g7⟩ :=
      flush_fields_of_clean { s with clock := t, interimTranscript := collectInterim rs }
        (by show s.finalDep = s.finalTranscript; rw [hd, hf])
    rw [hstep, hh, ho]
    exact ⟨g1.trans hl, g2.trans hf, g3.trans hd, g4.trans hm, g5, g6, g7⟩
  · have hh : handleEv (Ev.recResult i rs) { s with clock := t }
        = { s with clock := t } := by
      show (if capRunning i { s with clock := t } = true
            then onResultBody i rs { s with clock := t }
            else { s with clock := t })
          = { s with clock := t }
      rw [if_neg hcr]
    obtain ⟨g1, g2, g3, g4, g5, g6, g7⟩ :=
      flush_fields_of_clean { s with clock := t }
        (by show s.finalDep = s.finalTranscript; rw [hd, hf])
    rw [hstep, hh]
    exact ⟨g1.trans hl, g2.trans hf, g3.trans hd, g4.trans hm, g5, g6, g7⟩

theorem interim_run (i : Nat) (s : Session) (evs : List (Nat × List SpeechResult))
    (hm : s.mounted = true) (hl : s.micState = MicState.listening)
    (hf : s.finalTranscript = "") (hd : s.finalDep = "")
    (hins : ∀ p ∈ evs, collectFinal p.2 = "") :
    (run s (evs.map (fun p => (p.1, Ev.recResult i p.2)))).micState = MicState.listening ∧
    (run s (evs.map (fun p => (p.1, Ev.recResult i p.2)))).finalTranscript = "" ∧
    (run s (evs.map (fun p => (p.1, Ev.recResult i p.2)))).finalDep = "" ∧
    (run s (evs.map (fun p => (p.1, Ev.recResult i p.2)))).mounted = true ∧
    (run s (evs.map (fun p => (p.1, Ev.recResult i p.2)))).captures = s.captures ∧
    (run s (evs.map (fun p => (p.1, Ev.recResult i p.2)))).dispatches = s.dispatches ∧
    (run s (evs.map (fun p => (p.1, Ev.recResult i p.2)))).selectedLanguage
      = s.selectedLanguage := by
  induction evs generalizing s with
  | nil => exact ⟨hl, hf, hd, hm, rfl, rfl, rfl⟩
  | cons p rest ih =>
    obtain ⟨h1, h2, h3, h4, h5, h6, h7⟩ :=
      interim_turn p.1 i p.2 s hm hl hf hd (hins p (List.mem_cons_self p rest))
    obtain ⟨g1, g2, g3, g4, g5, g6, g7⟩ :=
      ih (step p.1 (Ev.recResult i p.2) s) h4 h1 h2 h3
        (fun q hq => hins q (List.mem_cons_of_mem p hq))
    exact ⟨g1, g2, g3, g4, g5.trans h5, g6.trans h6, g7.trans h7⟩

theorem final_turn (t i : Nat) (rs : List SpeechResult) (s : Session)
    (hm : s.mounted = true) (hd : s.finalDep = "")
    (hcr : capRunning i s = true)
    (hfin : trimStr (collectFinal rs) ≠ "") :
    (step t (Ev.recResult i rs) s).micState = MicState.processing ∧
    (step t (Ev.recResult i rs) s).interimTranscript = "" ∧
    (step t (Ev.recResult i rs) s).finalTranscript = "" ∧
    (step t (Ev.recResult i rs) s).dispatches = s.dispatches + 1 ∧
    (step t (Ev.recResult i rs) s).pendingQuery
      = some (collectFinal rs, s.selectedLanguage) := by
  have hne : collectFinal rs ≠ "" := ne_empty_of_trim_ne _ hfin
  have hstep : step t (Ev.recResult i rs) s
      = flushEffects (handleEv (Ev.recResult i rs) { s with clock := t }) := by
    unfold step
    rw [if_pos hm]
  have hcr2 : capRunning i { s with clock := t } = true := hcr
  have hh : handleEv (Ev.recResult i rs) { s with clock := t }
      = onResultBody i rs { s with clock := t } := by
    show (if capRunning i { s with clock := t } = true
          then onResultBody i rs { s with clock := t }
          else { s with clock := t })
        = onResultBody i rs { s with clock := t }
    rw [if_pos hcr2]
  have ho : onResultBody i rs { s with clock := t }
      = { s with
          clock := t
          finalTranscript := collectFinal rs
          interimTranscript := ""
          captures := modifyIdx Capture.requestStop i s.captures } := by
    simp only [onResultBody]
    rw [if_pos hne]
  have hFB : finalBody
      { s with
        clock := t
        finalTranscript := collectFinal rs
        interimTranscript := ""
        captures := modifyIdx Capture.requestStop i s.captures }
      = { s with
          clock := t
          finalTranscript := ""
          interimTranscript := ""
          captures := modifyIdx Capture.requestStop i s.captures
          micState := MicState.processing
          pendingQuery := some (collectFinal rs, s.selectedLanguage)
          dispatches := s.dispatches + 1 } := by
    unfold finalBody processQueryStart
    rw [if_pos hfin]
  have hFC : finalCheck
      { s with
        clock := t
        finalTranscript := collectFinal rs
        interimTranscript := ""
        captures := modifyIdx Capture.requestStop i s.captures }
      = { s with
          clock := t
          finalTranscript := ""
          interimTranscript := ""
          captures := modifyIdx Capture.requestStop i s.captures
          micState := MicState.processing
          pendingQuery := some (collectFinal rs, s.selectedLanguage)
          dispatches := s.dispatches + 1
          finalDep := "" } := by
    unfold finalCheck
    rw [if_neg (fun hEq => hne ((show s.finalDep = collectFinal rs from hEq).symm.trans hd))]
    rw [hFB]
  rw [hstep, hh, ho]
  unfold flushEffects
  rw [hFC]
  exact ⟨silenceCheck_micState _, silenceCheck_interim _, silenceCheck_finalTranscript _,
         silenceCheck_dispatches _, silenceCheck_pendingQuery _⟩

/-- Claim C2 (amended): for every sequence of interim-result events followed
by one final-result event whose finalized text is non-blank, `micState`
stays Listening across the interim turns with no dispatch, and the final
event's turn makes the Listening→Processing transition exactly once: exactly
one query is dispatched (with the finalized text and the current language),
`interimTranscript` is empty immediately after, and `finalTranscript` has
been consumed and cleared within that same turn.  (A whitespace-only final
event, by contrast, dispatches nothing — see the counterexample.) -/
theorem claim2_amended (i t : Nat) (s : Session)
    (evs : List (Nat × List SpeechResult)) (rs : List SpeechResult)
    (hm : s.mounted = true) (hl : s.micState = MicState.listening)
    (hf : s.finalTranscript = "") (hd : s.finalDep = "")
    (hins : ∀ p ∈ evs, collectFinal p.2 = "")
    (hcr : capRunning i s = true)
    (hfin : trimStr (collectFinal rs) ≠ "") :
    (run s (evs.map (fun p => (p.1, Ev.recResult i p.2)))).micState = MicState.listening ∧
    (run s (evs.map (fun p => (p.1, Ev.recResult i p.2)))).dispatches = s.dispatches ∧
    (step t (Ev.recResult i rs)
        (run s (evs.map (fun p => (p.1, Ev.recResult i p.2))))).micState
      = MicState.processing ∧
    (step t (Ev.recResult i rs)
        (run s (evs.map (fun p => (p.1, Ev.recResult i p.2))))).interimTranscript = "" ∧
    (step t (Ev.recResult i rs)
        (run s (evs.map (fun p => (p.1, Ev.recResult i p.2))))).finalTranscript = "" ∧
    (step t (Ev.recResult i rs)
        (run s (evs.map (fun p => (p.1, Ev.recResult i p.2))))).dispatches
      = s.dispatches + 1 ∧
    (step t (Ev.recResult i rs)
        (run s (evs.map (fun p => (p.1, Ev.recResult i p.2))))).pendingQuery
      = some (collectFinal rs, s.selectedLanguage) := by
  obtain ⟨g1, g2, g3, g4, g5, g6, g7⟩ := interim_run i s evs hm hl hf hd hins
  have hcr2 : capRunning i (run s (evs.map (fun p => (p.1, Ev.recResult i p.2)))) = true := by
    unfold capRunning at hcr ⊢
    rw [g5]
    exact hcr
  obtain ⟨f1, f2, f3, f4, f5⟩ :=
    final_turn t i rs (run s (evs.map (fun p => (p.1, Ev.recResult i p.2))))
      g4 g3 hcr2 hfin
  refine ⟨g1, g6, f1, f2, f3, ?_, ?_⟩
  · rw [f4, g6]
  · rw [f5, g7]

/-- Witness for C2 (amended): a concrete Listening session, one interim event
carrying `hel`, then a final event carrying `hello`. -/
theorem claim2_amended_witness :
    (let s := run (initSession Lang.enUS true) [(0, Ev.micClick true), (0, Ev.recStart 0)]
     let s1 := run s [(1, Ev.recResult 0 [⟨"hel", false⟩])]
     let s2 := step 2 (Ev.recResult 0 [⟨"hello", true⟩]) s1
     s1.micState = MicState.listening ∧ s1.dispatches = 0 ∧
     s2.micState = MicState.processing ∧ s2.interimTranscript = "" ∧
     s2.finalTranscript = "" ∧ s2.dispatches = 1 ∧
     s2.pendingQuery = some ("hello", Lang.enUS)) := by
  have h := claim2_amended 0 2
    (run (initSession Lang.enUS true) [(0, Ev.micClick true), (0, Ev.recStart 0)])
    [(1, [⟨"hel", false⟩])] [⟨"hello", true⟩]
    (by decide) (by decide) (by decide) (by decide) (by decide) (by decide) (by decide)
  exact h

theorem Inv_of_eq (s1 s2 : Session)
    (hp : s2.pendingTimers = s1.pendingTimers) (hr : s2.timerRef = s1.timerRef)
    (hc : s2.captures = s1.captures) (h : Inv s1) : Inv s2 :=
  ⟨timersOk_of_eq s1 s2 hp hr h.1, by rw [show s2.captures = s1.captures from hc]; exact h.2⟩

theorem Inv_modifyCur (s1 s2 : Session) (f : Capture → Capture)
    (hp : s2.pendingTimers = s1.pendingTimers) (hr : s2.timerRef = s1.timerRef)
    (hc : s2.captures = modifyCur f s1.captures) (h : Inv s1) : Inv s2 :=
  ⟨timersOk_of_eq s1 s2 hp hr h.1, by rw [hc]; exact capsOk_modifyCur f _ h.2⟩

theorem Inv_modifyIdx_safe (s1 s2 : Session) (f : Capture → Capture) (i : Nat)
    (hp : s2.pendingTimers = s1.pendingTimers) (hr : s2.timerRef = s1.timerRef)
    (hc : s2.captures = modifyIdx f i s1.captures)
    (hf : ∀ c, (f c).running = true → (f c).stopReq = true) (h : Inv s1) : Inv s2 :=
  ⟨timersOk_of_eq s1 s2 hp hr h.1, by rw [hc]; exact capsOk_modifyIdx f i _ h.2 hf⟩

theorem Inv_replace (s1 s2 : Session) (l : Lang)
    (hp : s2.pendingTimers = s1.pendingTimers) (hr : s2.timerRef = s1.timerRef)
    (hc : s2.captures = modifyCur Capture.requestStop s1.captures ++ [newCapture l])
    (h : Inv s1) : Inv s2 :=
  ⟨timersOk_of_eq s1 s2 hp hr h.1, by rw [hc]; exact capsOk_replace _ _ h.2⟩

theorem capsOk_timerFire (id : Nat) (s : Session) (h : capsOk s.captures) :
    capsOk (timerFire id s).captures := by
  unfold timerFire
  rcases Option.eq_none_or_eq_some
      (s.pendingTimers.find? (fun x => x.id == id && x.deadline == s.clock)) with hf | ⟨e, hf⟩
  · rw [hf]
    exact h
  · simp only [hf]
    split
    · exact capsOk_modifyCur _ _ h
    · exact h

theorem Inv_timerFire (id : Nat) (s : Session) (h : Inv s) : Inv (timerFire id s) :=
  ⟨timersOk_timerFire id s h.1, capsOk_timerFire id s h.2⟩

theorem Inv_responderSettle (r : Option VoiceResponse) (s : Session) (h : Inv s) :
    Inv (responderSettle r s) := by
  rcases Option.eq_none_or_eq_some s.pendingQuery with hq | ⟨p, hq⟩
  · have he : responderSettle r s = s := by
      unfold responderSettle
      rw [hq]
    rw [he]
    exact h
  · rw [responderSettle_of_pending r s p.1 p.2 (by rw [hq])]
    exact Inv_of_eq s _ rfl rfl rfl h

theorem Inv_unmount (s : Session) (h : Inv s) : Inv (unmountSession s) := by
  by_cases hs : s.supported = true
  · have he : unmountSession s
        = { eraseRefTimer { s with captures := modifyCur Capture.requestStop s.captures }
            with mounted := false } := by
      unfold unmountSession
      rw [if_pos hs]
    rw [he]
    have h1 : Inv { s with captures := modifyCur Capture.requestStop s.captures } :=
      Inv_modifyCur s _ Capture.requestStop rfl rfl rfl h
    refine ⟨Or.inl ?_, ?_⟩
    · exact eraseRefTimer_pending_nil _ h1.1
    · obtain ⟨pt, hpt⟩ :=
        eraseRefTimer_shape { s with captures := modifyCur Capture.requestStop s.captures }
      have hc : ({ eraseRefTimer
            { s with captures := modifyCur Capture.requestStop s.captures }
            with mounted := false }).captures
          = modifyCur Capture.requestStop s.captures := by
        rw [hpt]
      rw [hc]
      exact capsOk_modifyCur _ _ h.2
  · have he : unmountSession s = { eraseRefTimer s with mounted := false } := by
      unfold unmountSession
      rw [if_neg hs]
    rw [he]
    obtain ⟨pt, hpt⟩ := eraseRefTimer_shape s
    refine ⟨Or.inl (eraseRefTimer_pending_nil _ h.1), ?_⟩
    have hc : ({ eraseRefTimer s with mounted := false }).captures = s.captures := by
      rw [hpt]
    rw [hc]
    exact h.2

theorem Inv_micButtonClick (g : Bool) (s : Session) (h : Inv s) :
    Inv (micButtonClick g s) := by
  unfold micButtonClick handleMicClick
  split
  · exact h
  · split
    · exact Inv_of_eq s _ rfl rfl rfl h
    · split
      · exact Inv_modifyCur s _ Capture.requestStop rfl rfl rfl h
      · split
        · exact h
        · split
          · exact Inv_modifyCur s _ _ rfl rfl rfl h
          · exact Inv_of_eq s _ rfl rfl rfl h

theorem Inv_handleEv (e : Ev) (s : Session) (h : Inv s) : Inv (handleEv e s) := by
  cases e with
  | micClick g => exact Inv_micButtonClick g s h
  | selectLang l =>
    show Inv (selectLanguage l s)
    unfold selectLanguage
    by_cases hs : s.supported = true
    · rw [if_pos hs]
      exact Inv_replace s _ l rfl rfl rfl h
    · rw [if_neg hs]
      exact Inv_of_eq s _ rfl rfl rfl h
  | recStart i =>
    show Inv (if capRunning i s = true then onStartBody s else s)
    split
    · exact Inv_of_eq s _ rfl rfl rfl h
    · exact h
  | recResult i rs =>
    show Inv (if capRunning i s = true then onResultBody i rs s else s)
    split
    · unfold onResultBody
      by_cases hfe : collectFinal rs ≠ ""
      · rw [if_pos hfe]
        exact Inv_modifyIdx_safe s _ Capture.requestStop i rfl rfl rfl requestStop_safe h
      · rw [if_neg hfe]
        exact Inv_of_eq s _ rfl rfl rfl h
    · exact h
  | recError i e2 =>
    show Inv (if capRunning i s = true then onErrorBody e2 s else s)
    split
    · unfold onErrorBody
      split
      · exact Inv_of_eq s _ rfl rfl rfl h
      · exact Inv_of_eq s _ rfl rfl rfl h
    · exact h
  | recEnd i =>
    show Inv (if capRunning i s = true then onEndBody i s else s)
    split
    · exact Inv_modifyIdx_safe s _ Capture.endRun i rfl rfl rfl endRun_safe h
    · exact h
  | timer id => exact Inv_timerFire id s h
  | settle r => exact Inv_responderSettle r s h
  | textChange t2 => exact Inv_of_eq s _ rfl rfl rfl h
  | textSubmit =>
    show Inv (handleTextSubmit s)
    unfold handleTextSubmit
    split
    · exact Inv_of_eq s _ rfl rfl rfl h
    · exact h
  | toggleText b =>
    show Inv (if b then { s with showTextInput := true }
              else { s with showTextInput := false, textInput := "" })
    split
    · exact Inv_of_eq s _ rfl rfl rfl h
    · exact Inv_of_eq s _ rfl rfl rfl h
  | unmount => exact Inv_unmount s h

theorem Inv_flush (s : Session) (h : Inv s) : Inv (flushEffects s) := by
  constructor
  · show timersOk (silenceCheck (finalCheck s))
    exact timersOk_silenceCheck _
      (timersOk_of_eq s _ (finalCheck_pendingTimers s) (finalCheck_timerRef s) h.1)
  · rw [flushEffects_captures]
    exact h.2

theorem Inv_step (t : Nat) (e : Ev) (s : Session) (h : Inv s) : Inv (step t e s) := by
  have h0 : Inv { s with clock := t } := ⟨timersOk_of_eq s _ rfl rfl h.1, h.2⟩
  unfold step
  by_cases hm : s.mounted = true
  · rw [if_pos hm]
    cases e with
    | unmount => exact Inv_unmount _ h0
    | micClick g => exact Inv_flush _ (Inv_handleEv _ _ h0)
    | selectLang l => exact Inv_flush _ (Inv_handleEv _ _ h0)
    | recStart i => exact Inv_flush _ (Inv_handleEv _ _ h0)
    | recResult i rs => exact Inv_flush _ (Inv_handleEv _ _ h0)
    | recError i e2 => exact Inv_flush _ (Inv_handleEv _ _ h0)
    | recEnd i => exact Inv_flush _ (Inv_handleEv _ _ h0)
    | timer id => exact Inv_flush _ (Inv_handleEv _ _ h0)
    | settle r => exact Inv_flush _ (Inv_handleEv _ _ h0)
    | textChange t2 => exact Inv_flush _ (Inv_handleEv _ _ h0)
    | textSubmit => exact Inv_flush _ (Inv_handleEv _ _ h0)
    | toggleText b => exact Inv_flush _ (Inv_handleEv _ _ h0)
  · rw [if_neg hm]
    cases e with
    | settle r => exact Inv_responderSettle r _ h0
    | unmount => exact h0
    | micClick g => exact h0
    | selectLang l => exact h0
    | recStart i => exact h0
    | recResult i rs => exact h0
    | recError i e2 => exact h0
    | recEnd i => exact h0
    | timer id => exact h0
    | textChange t2 => exact h0
    | textSubmit => exact h0
    | toggleText b => exact h0

theorem Inv_run (s : Session) (evs : List (Nat × Ev)) (h : Inv s) : Inv (run s evs) := by
  induction evs generalizing s with
  | nil => exact h
  | cons p rest ih => exact ih _ (Inv_step p.1 p.2 s h)

theorem Inv_init (lang : Lang) (sup : Bool) : Inv (initSession lang sup) := by
  refine ⟨Or.inl rfl, ?_⟩
  intro j c hj hc hr
  have hlen : (initSession lang sup).captures.length ≤ 1 := by
    cases sup <;> simp [initSession]
  omega

/-- Claim C5: for arbitrary timed interleavings of user, capture, timer,
responder, and lifecycle events from the mounted session, at most one silence
timer is pending at any time, and at most one capture handle is active (live
and not cancelled) at any time — every arming and every replacement cancels
the previous one first. -/
theorem claim5_single_timer_single_capture (lang : Lang) (sup : Bool)
    (evs : List (Nat × Ev)) :
    (run (initSession lang sup) evs).pendingTimers.length ≤ 1 ∧
    ((run (initSession lang sup) evs).captures.filter Capture.isActive).length ≤ 1 := by
  have h := Inv_run (initSession lang sup) evs (Inv_init lang sup)
  constructor
  · rcases h.1 with h0 | ⟨r, e, hr, hp, _⟩
    · rw [h0]
      simp
    · rw [hp]
      simp
  · exact capsOk_filter_le_one _ h.2

end VoiceAssistant
